import Mathlib

/-!
Verification of the orchestration script `scripts/scan_and_report.py`
(ad-watchdog repository).

The script is embedded shallowly: pure fragments of the Python code become
Lean functions over explicit inputs; filesystem and subprocess effects become
explicit parameters (a `World` record describing what the filesystem and the
external SCANNER deliver during one host's processing); exceptions become
`Except`/`Option` values.  Definitions are translated from the source file;
the one deliberately spec-derived definition (`enumerateSpec`, used to compare
the code's enumeration against the specification's words) is marked as such.
-/

set_option maxHeartbeats 1000000
set_option maxRecDepth 8192

/-! ### String helpers modelling the Python primitives used by the script -/

/-- Boolean prefix test on char lists (models Python `str.startswith` at the
    character level; used to build the substring test). -/
def hasPrefixCL : List Char → List Char → Bool
  | [], _ => true
  | _ :: _, [] => false
  | p :: ps, c :: cs => p == c && hasPrefixCL ps cs

/-- Boolean substring test on char lists (models Python `pat in s`). -/
def hasInfixCL (pat : List Char) : List Char → Bool
  | [] => pat.isEmpty
  | c :: cs => hasPrefixCL pat (c :: cs) || hasInfixCL pat cs

/-- Python `pat in s` (substring containment). -/
def containsSub (s pat : String) : Bool := hasInfixCL pat.data s.data

/-- Split a char list at every occurrence of `sep` (the semantics of
    `String.splitOn` for a one-character separator, implemented by structural
    recursion so that concrete runs evaluate). -/
def splitCL (sep : Char) : List Char → List (List Char)
  | [] => [[]]
  | c :: cs =>
    match splitCL sep cs with
    | [] => [[c]]
    | l :: ls => if c = sep then [] :: l :: ls else (c :: l) :: ls

/-- Python `s.splitlines()` as used on csv text: split at newline characters
    (a carriage return left at a line end is whitespace and is ignored by the
    blank-line test). -/
def splitNL (s : String) : List String := (splitCL '\n' s.data).map String.mk

/-- Python `s.lower()` (ASCII, which covers the `".evtx"` comparison). -/
def lowerStr (s : String) : String := String.mk (s.data.map Char.toLower)

/-- Python `s.endswith(t)`. -/
def endsWithStr (s t : String) : Bool := hasPrefixCL t.data.reverse s.data.reverse

/-- Python `not ln.strip()`: the line consists of whitespace only. -/
def isBlankLine (l : String) : Bool := l.data.all Char.isWhitespace

/-- Number of non-blank lines of a text, as computed at
    `scan_and_report.py:183` (`[ln for ln in text.splitlines() if ln.strip()]`).
    Lines are split at newline characters; a carriage return left at the end
    of a line is whitespace, so CRLF texts count identically. -/
def nonBlankCount (s : String) : Nat :=
  ((splitNL s).filter (fun l => !isBlankLine l)).length

/-- Python `s.strip()` is truthy: some character is not whitespace
    (`scan_and_report.py:193`). -/
def hasNonWs (s : String) : Bool := s.data.any (fun c => !c.isWhitespace)

/-- Python `sep.join(lines)`. -/
def joinWith (sep : String) : List String → String
  | [] => ""
  | [x] => x
  | x :: y :: ys => x ++ sep ++ joinWith sep (y :: ys)

/-- Python `x or default` for an optional string (`None` and `""` are falsy). -/
def pyOr (o : Option String) (d : String) : String :=
  match o with
  | none => d
  | some p => if p = "" then d else p

/-- The tail of the list starting at its last `'.'`, if any. -/
def suffixFrom : List Char → Option (List Char)
  | [] => none
  | c :: cs =>
    match suffixFrom cs with
    | some s => some s
    | none => if c = '.' then some (c :: cs) else none

/-- Python `pathlib.PurePath.suffix` on a file name: the segment from the last
    dot, provided that dot is neither the first nor the last character. -/
def pySuffix (name : String) : String :=
  match name.data with
  | [] => ""
  | _ :: cs =>
    match suffixFrom cs with
    | some (c :: rest) => if rest.isEmpty then "" else String.mk (c :: rest)
    | _ => ""

/-- Python `pathlib.PurePath.name`: the component after the last slash
    (model paths carry no trailing slash). -/
def pathName (p : String) : String :=
  ((splitCL '/' p.data).map String.mk).getLastD ""

/-- Python `s.rstrip("/")`. -/
def rstripSlashes (s : String) : String :=
  String.mk ((s.data.reverse.dropWhile (fun c => c = '/')).reverse)

/-- Python `os.path.basename(s.rstrip("/"))` (`scan_and_report.py:127`). -/
def pyBasename (s : String) : String := pathName (rstripSlashes s)

/-- Lexicographic code-point comparison of char lists (the semantics of
    Python `str.__lt__`, implemented by structural recursion so that concrete
    runs evaluate). -/
def ltCL : List Char → List Char → Bool
  | [], [] => false
  | [], _ :: _ => true
  | _ :: _, [] => false
  | a :: as, b :: bs =>
    if a.toNat < b.toNat then true
    else if b.toNat < a.toNat then false
    else ltCL as bs

/-- Python `a < b` on strings. -/
def strLt (a b : String) : Bool := ltCL a.data b.data

/-- Stable insertion into a name-sorted list of (name, content) pairs. -/
def insertByName (x : String × String) :
    List (String × String) → List (String × String)
  | [] => [x]
  | y :: ys => if strLt y.1 x.1 then y :: insertByName x ys else x :: y :: ys

/-- Python `sorted(...)` over directory entries compared by file name
    (`scan_and_report.py:180`, `:191`): stable ascending sort. -/
def sortByName : List (String × String) → List (String × String)
  | [] => []
  | x :: xs => insertByName x (sortByName xs)

/-- Stable insertion into a sorted list of strings. -/
def insertStr (x : String) : List String → List String
  | [] => [x]
  | y :: ys => if strLt y x then y :: insertStr x ys else x :: y :: ys

/-- Ascending sort of a list of strings. -/
def sortStrings : List String → List String
  | [] => []
  | x :: xs => insertStr x (sortStrings xs)

/-! ### Configuration and data model -/

/-- The environment-derived configuration of `scan_and_report.py`
    (lines 17-46), read once at startup and immutable afterwards. -/
structure Config where
  chainsMode : String
  chainsFormat : String
  chainsLevels : List String
  sigmaDir : String
  mappingYml : String
  chainsRuleDir : String
  quiet : Bool
  localTime : Bool
  timezone : String
  fromStr : String
  toStr : String
  extensions : List String
  reportsDir : String
  /-- models MAIL_SUBJECT_PREFIX -/
  mailSubject : String
  deriving Repr, DecidableEq

/-- The per-host result dictionary returned by `run_for_host`
    (`scan_and_report.py:210`, `:255`, `:264`). -/
structure HostOutcome where
  host : String
  report_path : Option String
  log_path : Option String
  detected : Bool
  deriving Repr, DecidableEq

/-- What the filesystem and the external SCANNER deliver during one host's
    processing.  `hostFiles` is the `rglob` traversal of the host directory in
    traversal order, each entry tagged with `is_file()`.  `setupErr` is an
    exception raised in lines 127-144 (output-dir creation, enumeration,
    temp-dir creation) — these lines run before the `try:` of line 146.
    `bodyErr` is an exception raised inside the `try:` body; `bodyErrAt` is
    the number of SCANNER invocations completed before it.  `outFiles` is the
    listing (name, content) of the artifacts the SCANNER wrote into the fresh
    output directory; `chatter` is the text the invocation loop appends to the
    wrapper's log (the `# cmd:` lines and the subprocesses' combined output);
    `tempDirName` is the path `tempfile.mkdtemp` returns. -/
structure World where
  hostFiles : List (String × Bool)
  setupErr : Option String
  bodyErr : Option String
  bodyErrAt : Nat
  outFiles : List (String × String)
  chatter : String
  startedIso : String
  tempDirName : String
  deriving Repr

/-- The observable effect of one `run_for_host` call: the returned result (or
    the exception that escaped it, crashing the caller), the SCANNER argument
    vectors actually invoked, and whether a temporary rules directory was
    created and whether its removal (`shutil.rmtree(..., ignore_errors=True)`,
    line 273) was performed. -/
structure RunTrace where
  result : Except String HostOutcome
  invocations : List (List String)
  tempCreated : Bool
  tempRemoved : Bool
  deriving Repr

/-! ### Command Builder (`build_hunt_cmd_for_file`, lines 68-119) -/

/-- Output-format flag selection (lines 82-89); unrecognized formats default
    to `--csv`. -/
def formatFlag (fmt : String) : List String :=
  if fmt = "csv" then ["--csv"]
  else if fmt = "json" then ["--json"]
  else if fmt = "log" then ["--log"]
  else ["--csv"]

/-- Severity-level flag pairs (lines 92-93). -/
def levelArgs : List String → List String
  | [] => []
  | lv :: rest => "--level" :: lv :: levelArgs rest

/-- `build_hunt_cmd_for_file(evtx_file, output_dir, rules_dir, force_non_quiet)`
    (lines 68-119), translated statement by statement. -/
def build_hunt_cmd_for_file (cfg : Config) (evtxFile outputDir rulesDir : String)
    (forceNonQuiet : Bool) : List String :=
  let cmd := ["chainsaw", "hunt",
              "--mapping", cfg.mappingYml,
              "--output", outputDir,
              "--sigma", cfg.sigmaDir]
  let cmd := cmd ++ formatFlag cfg.chainsFormat
  let cmd := cmd ++ levelArgs cfg.chainsLevels
  let cmd := cmd ++
    (if cfg.localTime then ["--local"]
     else if cfg.timezone ≠ "" then ["--timezone", cfg.timezone] else [])
  let cmd := cmd ++ ["-r", rulesDir]
  let cmd := cmd ++ (if cfg.fromStr ≠ "" then ["--from", cfg.fromStr] else [])
  let cmd := cmd ++ (if cfg.toStr ≠ "" then ["--to", cfg.toStr] else [])
  let effectiveQuiet := cfg.quiet && !forceNonQuiet
  let cmd := cmd ++ (if effectiveQuiet then ["-q"] else [])
  cmd ++ [evtxFile]

/-! ### Host Runner (`run_for_host`, lines 122-273) -/

/-- Input-file enumeration (lines 136-137): every entry of the recursive
    traversal that is a file and whose `Path.suffix.lower()` equals the
    literal `".evtx"`.  The EXTENSIONS setting does not appear here. -/
def enumerateEvtx (files : List (String × Bool)) : List String :=
  (files.filter
    (fun f => f.2 && (lowerStr (pySuffix (pathName f.1)) == ".evtx"))).map
    (fun f => f.1)

/-- Modelled from the spec: the enumeration the specification describes —
    files whose extension matches one of the configured EXTENSIONS values,
    case-insensitively, returned in sorted order.  Used only to compare the
    specification's words against `enumerateEvtx`. -/
def enumerateSpec (cfg : Config) (files : List (String × Bool)) : List String :=
  sortStrings
    (((files.filter
      (fun f => f.2 && cfg.extensions.any
        (fun e => lowerStr (pySuffix (pathName f.1)) == lowerStr e))).map
      (fun f => f.1)))

/-- First csv artifact (in the given order) with more than one non-blank line
    (lines 180-187); returns its name. -/
def csvHit : List (String × String) → Option String
  | [] => none
  | f :: rest => if 1 < nonBlankCount f.2 then some f.1 else csvHit rest

/-- First json artifact (in the given order) with non-whitespace content
    (lines 191-196); returns its name. -/
def jsonHit : List (String × String) → Option String
  | [] => none
  | f :: rest => if hasNonWs f.2 then some f.1 else jsonHit rest

/-- Detection determination (lines 178-205 and, identically, 229-251):
    `artifacts` is the output-directory listing, `logText` the wrapper's own
    log when one exists (`none` in quiet mode, where the non-csv/json branch
    sets `detected = False` directly, lines 249-251).  Returns the detected
    flag and the name of the report artifact, if any. -/
def detectOutputs (fmt : String) (artifacts : List (String × String))
    (logText : Option String) : Bool × Option String :=
  if fmt = "csv" then
    match csvHit (sortByName (artifacts.filter (fun f => endsWithStr f.1 ".csv"))) with
    | some n => (true, some n)
    | none => (false, none)
  else if fmt = "json" then
    match jsonHit (sortByName (artifacts.filter (fun f => endsWithStr f.1 ".json"))) with
    | some n => (true, some n)
    | none => (false, none)
  else
    match logText with
    | some t => (containsSub t "DETECTED" || containsSub t "Matches:", none)
    | none => (false, none)

/-- Output directory path `{REPORTS_DIR}/{host}-{ts}` (line 131). -/
def mkOutDir (cfg : Config) (host ts : String) : String :=
  cfg.reportsDir ++ "/" ++ host ++ "-" ++ ts

/-- Log file path `{out_dir}/{host}-{ts}.log` (line 133). -/
def mkLogPath (outDir host ts : String) : String :=
  outDir ++ "/" ++ host ++ "-" ++ ts ++ ".log"

/-- Effective rules directory (lines 140-144): the configured one, or the
    freshly created temporary directory when none is configured. -/
def effRulesDir (cfg : Config) (w : World) : String :=
  if cfg.chainsRuleDir = "" then w.tempDirName else cfg.chainsRuleDir

/-- The header block the verbose branch writes at the top of the per-host log
    (lines 151-163). -/
def headerText (cfg : Config) (hostDir outDir rulesDir startedIso : String)
    (files : List String) : String :=
  "# started: " ++ startedIso ++ "\n" ++
  "# host_dir: " ++ hostDir ++ "\n" ++
  "# levels: " ++
    (if cfg.chainsLevels.isEmpty then "ALL" else joinWith "," cfg.chainsLevels) ++ "\n" ++
  "# mode: " ++ cfg.chainsMode ++ ", format: " ++ cfg.chainsFormat ++ "\n" ++
  "# output_dir: " ++ outDir ++ "\n" ++
  "# rules_dir: " ++ rulesDir ++ "\n" ++
  "# target files:\n" ++
  (if files.isEmpty then "#   (none found)\n"
   else String.join (files.map (fun f => "#   " ++ f ++ "\n"))) ++
  "# target count: " ++ toString files.length ++ "\n\n"

/-- The full text of the wrapper's per-host log in verbose mode: the header,
    then either the skip marker (line 166) or the invocation loop's combined
    output (`# cmd:` lines plus the subprocesses' stdout/stderr, lines
    169-172, modelled opaquely by `w.chatter`). -/
def hostLogText (cfg : Config) (hostDir ts : String) (w : World) : String :=
  let host := pyBasename hostDir
  let outDir := mkOutDir cfg host ts
  let files := enumerateEvtx w.hostFiles
  headerText cfg hostDir outDir (effRulesDir cfg w) w.startedIso files ++
    (if files.isEmpty then "# skipped: no .evtx found\n" else w.chatter)

/-- The output-directory listing at detection time.  The directory
    `{host}-{ts}` is freshly created (line 132); only the SCANNER invocations
    write csv/json artifacts into it (the wrapper itself writes only the
    `.log` file), so with zero input files it holds no artifacts. -/
def hostArtifacts (w : World) : List (String × String) :=
  if (enumerateEvtx w.hostFiles).isEmpty then [] else w.outFiles

/-- `run_for_host(host_dir)` (lines 122-273).  The lines before the `try:`
    (output-directory creation, enumeration, temporary-rules-directory
    creation, 127-144) can raise; such an exception (`w.setupErr`) escapes the
    function uncaught.  An exception inside the `try:` body (`w.bodyErr`) is
    caught by the handler of lines 262-269, which returns the fallback result;
    the `finally:` of lines 270-273 removes the temporary rules directory on
    every path that reaches the `try:`. -/
def run_for_host (cfg : Config) (hostDir ts : String) (w : World) : RunTrace :=
  let host := pyBasename hostDir
  let outDir := mkOutDir cfg host ts
  let logPath := mkLogPath outDir host ts
  match w.setupErr with
  | some e =>
    { result := Except.error e, invocations := [],
      tempCreated := false, tempRemoved := false }
  | none =>
    let evtxFiles := enumerateEvtx w.hostFiles
    let tc := cfg.chainsRuleDir == ""
    let rulesDir := effRulesDir cfg w
    let cmds := evtxFiles.map
      (fun f => build_hunt_cmd_for_file cfg f outDir rulesDir (!cfg.quiet))
    match w.bodyErr with
    | some _ =>
      { result := Except.ok
          { host := host, report_path := none,
            log_path := if cfg.quiet then none else some logPath,
            detected := false },
        invocations := cmds.take w.bodyErrAt,
        tempCreated := tc, tempRemoved := tc }
    | none =>
      let logTextOpt :=
        if cfg.quiet then none else some (hostLogText cfg hostDir ts w)
      let dr := detectOutputs cfg.chainsFormat (hostArtifacts w) logTextOpt
      { result := Except.ok
          { host := host,
            report_path := dr.2.map (fun n => outDir ++ "/" ++ n),
            log_path := if cfg.quiet then none else some logPath,
            detected := dr.1 },
        invocations := cmds,
        tempCreated := tc, tempRemoved := tc }

/-! ### Orchestrator and Notifier (`main`, lines 304-339) -/

/-- Result collection (lines 313-319): each `fut.result()` re-raises an
    exception that escaped the corresponding `run_for_host`; the first such
    exception aborts the collection loop (and the run). -/
def collectResults : List RunTrace → Except String (List HostOutcome)
  | [] => Except.ok []
  | t :: ts =>
    match t.result with
    | Except.error e => Except.error e
    | Except.ok r =>
      match collectResults ts with
      | Except.error e => Except.error e
      | Except.ok rs => Except.ok (r :: rs)

/-- One summary line per detected host (line 333). -/
def hostLine (r : HostOutcome) : String :=
  "- " ++ r.host ++ ": " ++ pyOr r.report_path "(report not found)"

/-- The summary body lines (lines 324-333). -/
def summaryLines (cfg : Config) (dh : List HostOutcome) : List String :=
  ["Chainsaw 検出結果サマリ",
   "対象モード: " ++ cfg.chainsMode ++ ", フォーマット: " ++ cfg.chainsFormat] ++
  (if cfg.chainsLevels.isEmpty then []
   else ["レベルフィルタ: " ++ joinWith "," cfg.chainsLevels]) ++
  (if cfg.fromStr = "" && cfg.toStr = "" then []
   else ["期間: " ++ (if cfg.fromStr = "" then "-" else cfg.fromStr) ++ " ～ " ++
         (if cfg.toStr = "" then "-" else cfg.toStr)]) ++
  [""] ++
  dh.map hostLine

/-- The notification step of `main` (lines 322-339): the Notifier
    (`send_mail`) is called exactly once, with the subject and body below,
    when at least one result is detected; otherwise it is not called. -/
def notifyStep (cfg : Config) (results : List HostOutcome) :
    Option (String × String) :=
  let dh := results.filter (fun r => r.detected)
  if dh.isEmpty then none
  else some
    (cfg.mailSubject ++ " " ++ toString dh.length ++ " host(s) detected",
     joinWith "\n" (summaryLines cfg dh))

/-- Local-time / timezone segment of the command (lines 96-99). -/
def tzSeg (cfg : Config) : List String :=
  if cfg.localTime then ["--local"]
  else if cfg.timezone ≠ "" then ["--timezone", cfg.timezone] else []

/-- The configuration- and input-derived free strings of one builder call;
    the flag-collision statement assumes the flag literals are not themselves
    among them. -/
def cmdDataStrings (cfg : Config) (f o r : String) : List String :=
  [cfg.mappingYml, o, cfg.sigmaDir, r, cfg.timezone, cfg.fromStr, cfg.toStr, f]
  ++ cfg.chainsLevels

/-! ### Fixture inputs for witnesses and counterexamples -/

/-- A representative configuration (quiet csv run, no native rules dir). -/
def cfgBase : Config :=
  { chainsMode := "hunt", chainsFormat := "csv", chainsLevels := [],
    sigmaDir := "/sigma", mappingYml := "/map.yml", chainsRuleDir := "",
    quiet := true, localTime := true, timezone := "", fromStr := "", toStr := "",
    extensions := [".evtx"], reportsDir := "/reports",
    mailSubject := "[Chainsaw Detection]" }

/-- A benign world: no exceptions, no input files, no artifacts. -/
def wBase : World :=
  { hostFiles := [], setupErr := none, bodyErr := none, bodyErrAt := 0,
    outFiles := [], chatter := "", startedIso := "2025-01-01T00:00:00",
    tempDirName := "/tmp/chainsaw_rules_a" }

/-- A configuration with local time disabled and a timezone configured. -/
def cfgTz : Config := { cfgBase with localTime := false, timezone := "UTC" }

/-- A traversal listing with mixed extensions and unsorted order. -/
def filesMixed : List (String × Bool) :=
  [("/h/b.EVTX", true), ("/h/a.evtx", true), ("/h/c.log", true)]

/-- A configuration whose EXTENSIONS setting is ".log". -/
def cfgExtLog : Config := { cfgBase with extensions := [".log"] }

/-- A world in which the SCANNER produced a header-only csv and a csv with a
    data row. -/
def wDet : World :=
  { wBase with
      hostFiles := [("/evtx/H1/x.evtx", true)],
      outFiles := [("b.csv", "h\nrow\n"), ("a.csv", "h\n")] }

/-- The concrete result of the `wDet` run. -/
def rDet : HostOutcome :=
  { host := "H1", report_path := some "/reports/H1-t/b.csv",
    log_path := none, detected := true }

/-- A verbose configuration with the log output format. -/
def cfgLogV : Config := { cfgBase with chainsFormat := "log", quiet := false }

/-- The result of the clean verbose log run used as the C5 witness. -/
def rLogClean : HostOutcome :=
  { host := "H1", report_path := none,
    log_path := some "/reports/H1-t/H1-t.log", detected := false }

/-! ### Supporting lemmas -/

theorem hasPrefixCL_iff (p s : List Char) : hasPrefixCL p s = true ↔ p <+: s := by
  induction p generalizing s with
  | nil => simp [hasPrefixCL]
  | cons a as ih =>
    cases s with
    | nil => simp [hasPrefixCL]
    | cons b bs =>
      simp [hasPrefixCL, List.cons_prefix_cons, ih, Bool.and_eq_true, beq_iff_eq]

theorem hasInfixCL_iff (p s : List Char) : hasInfixCL p s = true ↔ p <:+: s := by
  induction s with
  | nil => simp [hasInfixCL, List.isEmpty_iff]
  | cons c cs ih =>
    simp [hasInfixCL, Bool.or_eq_true, hasPrefixCL_iff, ih, List.infix_cons_iff]

theorem containsSub_iff (s pat : String) :
    containsSub s pat = true ↔ pat.data <:+: s.data :=
  hasInfixCL_iff pat.data s.data

theorem mem_insertByName (x f : String × String) (l : List (String × String)) :
    f ∈ insertByName x l ↔ f = x ∨ f ∈ l := by
  induction l with
  | nil => simp [insertByName]
  | cons y ys ih =>
    simp only [insertByName]
    split
    · simp [ih]; tauto
    · simp

theorem mem_sortByName (f : String × String) (l : List (String × String)) :
    f ∈ sortByName l ↔ f ∈ l := by
  induction l with
  | nil => simp [sortByName]
  | cons y ys ih => simp [sortByName, mem_insertByName, ih]

theorem csvHit_isSome_iff (l : List (String × String)) :
    (csvHit l).isSome = true ↔ ∃ f ∈ l, 1 < nonBlankCount f.2 := by
  induction l with
  | nil => simp [csvHit]
  | cons f rest ih =>
    simp only [csvHit]
    split
    · simp only [Option.isSome_some, true_iff]
      exact ⟨f, by simp, by assumption⟩
    · simp only [ih, List.mem_cons]
      constructor
      · rintro ⟨g, hg, hgt⟩; exact ⟨g, Or.inr hg, hgt⟩
      · rintro ⟨g, hg | hg, hgt⟩
        · subst hg; omega
        · exact ⟨g, hg, hgt⟩

theorem csvHit_eq_some (l : List (String × String)) (n : String)
    (h : csvHit l = some n) :
    ∃ c l₁ l₂, l = l₁ ++ (n, c) :: l₂ ∧ 1 < nonBlankCount c ∧
      ∀ g ∈ l₁, nonBlankCount g.2 ≤ 1 := by
  induction l with
  | nil => simp [csvHit] at h
  | cons f rest ih =>
    simp only [csvHit] at h
    split at h
    · obtain rfl : f.1 = n := by simpa using h
      exact ⟨f.2, [], rest, by simp, by assumption, by simp⟩
    · obtain ⟨c, l₁, l₂, heq, hgt, hall⟩ := ih h
      refine ⟨c, f :: l₁, l₂, by simp [heq], hgt, ?_⟩
      intro g hg
      rcases List.mem_cons.mp hg with hg | hg
      · subst hg; omega
      · exact hall g hg

/-- The report/detected coupling of the detection block: a report path is
    recorded only together with a positive detection. -/
theorem detectOutputs_rep_detected (fmt : String) (a : List (String × String))
    (t : Option String) :
    (detectOutputs fmt a t).2.isSome = true → (detectOutputs fmt a t).1 = true := by
  unfold detectOutputs
  split
  · cases hc : csvHit (sortByName (a.filter (fun f => endsWithStr f.1 ".csv"))) <;> simp [hc]
  · split
    · cases hc : jsonHit (sortByName (a.filter (fun f => endsWithStr f.1 ".json"))) <;> simp [hc]
    · cases t <;> simp

/-- For the csv and json formats, a positive detection always records a
    report path. -/
theorem detectOutputs_detected_rep (fmt : String) (a : List (String × String))
    (t : Option String) (h : fmt = "csv" ∨ fmt = "json") :
    (detectOutputs fmt a t).1 = true → (detectOutputs fmt a t).2.isSome = true := by
  unfold detectOutputs
  rcases h with h | h <;> subst h <;> simp
  · cases hc : csvHit (sortByName (a.filter (fun f => endsWithStr f.1 ".csv"))) <;> simp [hc]
  · cases hc : jsonHit (sortByName (a.filter (fun f => endsWithStr f.1 ".json"))) <;> simp [hc]

/-- Outside the csv and json formats the detection block never records a
    report path. -/
theorem detectOutputs_log_rep (fmt : String) (a : List (String × String))
    (t : Option String) (h1 : fmt ≠ "csv") (h2 : fmt ≠ "json") :
    (detectOutputs fmt a t).2 = none := by
  unfold detectOutputs
  simp only [if_neg h1, if_neg h2]
  cases t <;> simp

/-- Membership in the level-flag segment. -/
theorem mem_levelArgs (x : String) (lvs : List String) (h : x ∈ levelArgs lvs) :
    x = "--level" ∨ x ∈ lvs := by
  induction lvs with
  | nil => simp [levelArgs] at h
  | cons lv rest ih =>
    simp only [levelArgs, List.mem_cons] at h
    rcases h with h | h | h
    · exact Or.inl h
    · exact Or.inr (by simp [h])
    · rcases ih h with h | h
      · exact Or.inl h
      · exact Or.inr (by simp [h])

/-- Membership in the format-flag segment. -/
theorem mem_formatFlag (x fmt : String) (h : x ∈ formatFlag fmt) :
    x = "--csv" ∨ x = "--json" ∨ x = "--log" := by
  unfold formatFlag at h
  split at h
  · simp at h; tauto
  · split at h
    · simp at h; tauto
    · split at h <;> simp at h <;> tauto

/-- The argument vector in one flat closed form: a concatenation of segments
    each determined by the inputs alone. -/
theorem build_hunt_cmd_eq (cfg : Config) (f o r : String) (q : Bool) :
    build_hunt_cmd_for_file cfg f o r q =
      ["chainsaw", "hunt", "--mapping", cfg.mappingYml, "--output", o,
       "--sigma", cfg.sigmaDir]
      ++ formatFlag cfg.chainsFormat ++ levelArgs cfg.chainsLevels ++ tzSeg cfg
      ++ ["-r", r]
      ++ (if cfg.fromStr ≠ "" then ["--from", cfg.fromStr] else [])
      ++ (if cfg.toStr ≠ "" then ["--to", cfg.toStr] else [])
      ++ (if cfg.quiet && !q then ["-q"] else [])
      ++ [f] := by
  simp [build_hunt_cmd_for_file, tzSeg, List.append_assoc]

/-- A member of a joined list occurs as a substring of the join. -/
theorem mem_joinWith_data (sep : String) (l : List String) (x : String)
    (h : x ∈ l) : x.data <:+: (joinWith sep l).data := by
  induction l with
  | nil => simp at h
  | cons y ys ih =>
    cases ys with
    | nil =>
      obtain rfl : x = y := by simpa using h
      exact List.infix_refl _
    | cons z zs =>
      rcases List.mem_cons.mp h with h | h
      · subst h
        refine ⟨[], sep.data ++ (joinWith sep (z :: zs)).data, ?_⟩
        simp [joinWith, String.data_append]
      · obtain ⟨s, t, hst⟩ := ih h
        refine ⟨y.data ++ sep.data ++ s, t, ?_⟩
        simp only [joinWith, String.data_append, ← hst]
        simp [List.append_assoc]

/-- Once the lines before the `try:` have executed without raising, the call
    always returns a result; when the `try:` body raised, that result is the
    not-detected fallback of the handler (lines 262-269). -/
theorem run_for_host_result_ok (cfg : Config) (hostDir ts : String) (w : World)
    (h : w.setupErr = none) :
    ∃ r, (run_for_host cfg hostDir ts w).result = Except.ok r ∧
      (w.bodyErr.isSome = true → r.detected = false ∧ r.report_path = none) := by
  unfold run_for_host
  rw [h]
  cases hb : w.bodyErr with
  | some e => exact ⟨_, rfl, fun _ => ⟨rfl, rfl⟩⟩
  | none => exact ⟨_, rfl, by simp⟩

/-! ### Claim C1 -/

/-- C1 counterexample: the claim says any exception during enumeration is
    caught at the host level and never crashes the Orchestrator.  But the
    enumeration (and the creation of the output and temp directories, lines
    127-144) runs before the `try:` of line 146, so an exception there escapes
    `run_for_host`; `fut.result()` re-raises it in the collection loop of
    `main` (line 316), aborting the run and losing the other host's result. -/
theorem enumeration_exception_crashes_run :
    (run_for_host cfgBase "/evtx/H1" "t"
        { wBase with setupErr := some "PermissionError" }).result
      = Except.error "PermissionError" ∧
    collectResults
        [run_for_host cfgBase "/evtx/H1" "t"
           { wBase with setupErr := some "PermissionError" },
         run_for_host cfgBase "/evtx/H2" "t" wBase]
      = Except.error "PermissionError" :=
  ⟨rfl, rfl⟩

/-- C1 (amended): for every host whose pre-`try:` setup (output-directory
    creation, enumeration, temporary-rules-directory creation) does not raise,
    any exception raised inside the `try:` body (invocation or detection
    check) is caught at the host level: the host's result has
    `detected = false` and `report_path = none`, every host contributes
    exactly one result, and the collection loop succeeds. -/
theorem body_exceptions_are_isolated (cfg : Config) (ts : String)
    (hws : List (String × World)) (h : ∀ p ∈ hws, p.2.setupErr = none) :
    ∃ rs, collectResults (hws.map (fun p => run_for_host cfg p.1 ts p.2))
        = Except.ok rs ∧
      List.Forall₂ (fun (p : String × World) (r : HostOutcome) =>
        (run_for_host cfg p.1 ts p.2).result = Except.ok r ∧
        (p.2.bodyErr.isSome = true → r.detected = false ∧ r.report_path = none))
        hws rs := by
  induction hws with
  | nil => exact ⟨[], rfl, List.Forall₂.nil⟩
  | cons p ps ih =>
    obtain ⟨r, hr, hprop⟩ := run_for_host_result_ok cfg p.1 ts p.2 (h p (by simp))
    obtain ⟨rs, hrs, hall⟩ := ih (fun q hq => h q (by simp [hq]))
    refine ⟨r :: rs, ?_, List.Forall₂.cons ⟨hr, hprop⟩ hall⟩
    simp [collectResults, hr, hrs]

/-- Witness for C1: a host whose `try:` body raises still yields a collected
    result list. -/
theorem body_exceptions_are_isolated_witness :
    (collectResults
      ([("/evtx/H1", { wBase with bodyErr := some "boom" })].map
        (fun p => run_for_host cfgBase p.1 "t" p.2))).isOk = true := by
  obtain ⟨rs, hrs, -⟩ :=
    body_exceptions_are_isolated cfgBase "t"
      [("/evtx/H1", { wBase with bodyErr := some "boom" })]
      (by intro p hp; rw [List.mem_singleton.mp hp]; rfl)
  rw [hrs]; rfl

/-! ### Claim C7 -/

/-- Every element of the argument vector is a fixed flag token, one of the
    free configuration/input strings, or an element of the local-time/timezone
    segment. -/
theorem mem_build_imp (cfg : Config) (f o r : String) (q : Bool) (x : String)
    (h : x ∈ build_hunt_cmd_for_file cfg f o r q) :
    x ∈ (["chainsaw", "hunt", "--mapping", "--output", "--sigma", "-r",
          "--from", "--to", "-q", "--csv", "--json", "--log", "--level"] :
          List String) ∨
    x ∈ cmdDataStrings cfg f o r ∨ x ∈ tzSeg cfg := by
  rw [build_hunt_cmd_eq] at h
  simp only [List.mem_append] at h
  rcases h with ((((((((h | h) | h) | h) | h) | h) | h) | h) | h)
  · simp only [List.mem_cons, List.not_mem_nil, or_false] at h
    rcases h with h | h | h | h | h | h | h | h <;>
      first
        | (left; simp [h]; done)
        | (right; left; simp [cmdDataStrings, h])
  · rcases mem_formatFlag x cfg.chainsFormat h with h | h | h <;> (left; simp [h])
  · rcases mem_levelArgs x cfg.chainsLevels h with h | h
    · left; simp [h]
    · right; left; simp [cmdDataStrings, h]
  · right; right; exact h
  · simp only [List.mem_cons, List.not_mem_nil, or_false] at h
    rcases h with h | h
    · left; simp [h]
    · right; left; simp [cmdDataStrings, h]
  · split at h
    · simp only [List.mem_cons, List.not_mem_nil, or_false] at h
      rcases h with h | h
      · left; simp [h]
      · right; left; simp [cmdDataStrings, h]
    · simp at h
  · split at h
    · simp only [List.mem_cons, List.not_mem_nil, or_false] at h
      rcases h with h | h
      · left; simp [h]
      · right; left; simp [cmdDataStrings, h]
    · simp at h
  · split at h
    · simp only [List.mem_cons, List.not_mem_nil, or_false] at h
      rcases h with h
      · left; simp [h]
    · simp at h
  · simp only [List.mem_singleton] at h
    right; left; simp [cmdDataStrings, h]

/-- The local-time/timezone segment is contained in the argument vector. -/
theorem tzSeg_sub_build (cfg : Config) (f o r : String) (q : Bool) (x : String)
    (h : x ∈ tzSeg cfg) : x ∈ build_hunt_cmd_for_file cfg f o r q := by
  rw [build_hunt_cmd_eq]
  simp only [List.mem_append]
  tauto

/-- C7: for every input to the Command Builder (with the free
    configuration/input strings not themselves being the two flag literals),
    the produced argument vector never contains both `--local` and
    `--timezone`: `--local` appears iff local-time is enabled, and
    `--timezone` appears iff a timezone string is configured and local-time
    is disabled (lines 96-99). -/
theorem local_and_timezone_flags_exclusive (cfg : Config) (f o r : String)
    (q : Bool)
    (hL : "--local" ∉ cmdDataStrings cfg f o r)
    (hT : "--timezone" ∉ cmdDataStrings cfg f o r) :
    ("--local" ∈ build_hunt_cmd_for_file cfg f o r q ↔ cfg.localTime = true) ∧
    ("--timezone" ∈ build_hunt_cmd_for_file cfg f o r q ↔
      cfg.localTime = false ∧ cfg.timezone ≠ "") ∧
    ¬("--local" ∈ build_hunt_cmd_for_file cfg f o r q ∧
      "--timezone" ∈ build_hunt_cmd_for_file cfg f o r q) := by
  have htzmem : cfg.timezone ∈ cmdDataStrings cfg f o r := by
    simp [cmdDataStrings]
  have hLtz : ("--local" : String) ≠ cfg.timezone :=
    fun heq => hL (heq ▸ htzmem)
  have h1 : "--local" ∈ build_hunt_cmd_for_file cfg f o r q ↔
      cfg.localTime = true := by
    constructor
    · intro h
      rcases mem_build_imp cfg f o r q _ h with hf | hd | ht
      · exact absurd hf (by decide)
      · exact absurd hd hL
      · unfold tzSeg at ht
        by_cases hlt : cfg.localTime = true
        · exact hlt
        · simp only [Bool.not_eq_true] at hlt
          rw [hlt] at ht
          simp only [Bool.false_eq_true, if_false] at ht
          split at ht
          · simp only [List.mem_cons, List.not_mem_nil, or_false] at ht
            rcases ht with ht | ht
            · exact absurd ht (by decide)
            · exact absurd ht hLtz
          · simp at ht
    · intro h
      exact tzSeg_sub_build cfg f o r q _ (by simp [tzSeg, h])
  have h2 : "--timezone" ∈ build_hunt_cmd_for_file cfg f o r q ↔
      cfg.localTime = false ∧ cfg.timezone ≠ "" := by
    constructor
    · intro h
      rcases mem_build_imp cfg f o r q _ h with hf | hd | ht
      · exact absurd hf (by decide)
      · exact absurd hd hT
      · unfold tzSeg at ht
        by_cases hlt : cfg.localTime = true
        · rw [hlt] at ht
          simp only [if_true] at ht
          simp only [List.mem_singleton] at ht
          exact absurd ht (by decide)
        · simp only [Bool.not_eq_true] at hlt
          rw [hlt] at ht
          simp only [Bool.false_eq_true, if_false] at ht
          split at ht
          · exact ⟨hlt, by assumption⟩
          · simp at ht
    · rintro ⟨hfalse, hne⟩
      refine tzSeg_sub_build cfg f o r q _ ?_
      simp [tzSeg, hfalse, hne]
  refine ⟨h1, h2, ?_⟩
  rintro ⟨ha, hb⟩
  have e1 := h1.mp ha
  have e2 := (h2.mp hb).1
  rw [e1] at e2
  exact Bool.noConfusion e2

/-- Witness for C7 at a concrete configuration. -/
theorem local_and_timezone_flags_exclusive_witness :
    "--timezone" ∈ build_hunt_cmd_for_file cfgTz "/e/a.evtx" "/out" "/rules" false :=
  (local_and_timezone_flags_exclusive cfgTz "/e/a.evtx" "/out" "/rules" false
      (by decide) (by decide)).2.1.mpr ⟨rfl, by decide⟩

/-! ### Claim C9 -/

/-- C9: the Command Builder is deterministic: identical inputs produce the
    identical argument vector on repeated calls, and that vector is a fixed
    concatenation of segments each computed only from the call's inputs —
    the builder reads no clock, randomness, or other hidden state. -/
theorem command_builder_deterministic (cfg cfg2 : Config) (f f2 o o2 r r2 : String)
    (q q2 : Bool) (h : cfg = cfg2 ∧ f = f2 ∧ o = o2 ∧ r = r2 ∧ q = q2) :
    build_hunt_cmd_for_file cfg f o r q = build_hunt_cmd_for_file cfg2 f2 o2 r2 q2 ∧
    build_hunt_cmd_for_file cfg f o r q =
      ["chainsaw", "hunt", "--mapping", cfg.mappingYml, "--output", o,
       "--sigma", cfg.sigmaDir]
      ++ formatFlag cfg.chainsFormat ++ levelArgs cfg.chainsLevels ++ tzSeg cfg
      ++ ["-r", r]
      ++ (if cfg.fromStr ≠ "" then ["--from", cfg.fromStr] else [])
      ++ (if cfg.toStr ≠ "" then ["--to", cfg.toStr] else [])
      ++ (if cfg.quiet && !q then ["-q"] else [])
      ++ [f] := by
  obtain ⟨rfl, rfl, rfl, rfl, rfl⟩ := h
  exact ⟨rfl, build_hunt_cmd_eq cfg f o r q⟩

/-- Witness for C9 at a concrete configuration and inputs. -/
theorem command_builder_deterministic_witness :
    build_hunt_cmd_for_file cfgBase "/e/a.evtx" "/out" "/rules" false =
      build_hunt_cmd_for_file cfgBase "/e/a.evtx" "/out" "/rules" false ∧
    build_hunt_cmd_for_file cfgBase "/e/a.evtx" "/out" "/rules" false =
      ["chainsaw", "hunt", "--mapping", cfgBase.mappingYml, "--output", "/out",
       "--sigma", cfgBase.sigmaDir]
      ++ formatFlag cfgBase.chainsFormat ++ levelArgs cfgBase.chainsLevels
      ++ tzSeg cfgBase
      ++ ["-r", "/rules"]
      ++ (if cfgBase.fromStr ≠ "" then ["--from", cfgBase.fromStr] else [])
      ++ (if cfgBase.toStr ≠ "" then ["--to", cfgBase.toStr] else [])
      ++ (if cfgBase.quiet && !false then ["-q"] else [])
      ++ ["/e/a.evtx"] :=
  command_builder_deterministic cfgBase cfgBase "/e/a.evtx" "/e/a.evtx"
    "/out" "/out" "/rules" "/rules" false false ⟨rfl, rfl, rfl, rfl, rfl⟩

/-! ### Claim C2 -/

/-- C2 counterexample: the enumeration of lines 136-137 matches the literal
    `".evtx"` suffix whatever EXTENSIONS says, and keeps the traversal order
    (no sorting), so it differs from the specified enumeration both when
    EXTENSIONS is ".log" (wrong file set) and when EXTENSIONS is the default
    ".evtx" (unsorted order). -/
theorem enumeration_ignores_extensions_and_order :
    enumerateEvtx filesMixed = ["/h/b.EVTX", "/h/a.evtx"] ∧
    enumerateSpec cfgExtLog filesMixed = ["/h/c.log"] ∧
    enumerateSpec cfgBase filesMixed = ["/h/a.evtx", "/h/b.EVTX"] ∧
    enumerateEvtx filesMixed ≠ enumerateSpec cfgExtLog filesMixed ∧
    enumerateEvtx filesMixed ≠ enumerateSpec cfgBase filesMixed := by
  refine ⟨by decide, by decide, by decide, by decide, by decide⟩

/-- C2 (amended): the Host Runner enumerates exactly the files under the host
    directory whose extension, lowercased, equals the literal ".evtx"
    (case-insensitive on the extension; the EXTENSIONS setting is ignored),
    and processes them in filesystem traversal order — a sub-sequence of the
    traversal, not sorted. -/
theorem enumeration_exact (files : List (String × Bool)) :
    (∀ p : String, p ∈ enumerateEvtx files ↔
      (p, true) ∈ files ∧ lowerStr (pySuffix (pathName p)) = ".evtx") ∧
    List.Sublist (enumerateEvtx files) (files.map (fun f => f.1)) := by
  constructor
  · intro p
    unfold enumerateEvtx
    simp only [List.mem_map, List.mem_filter]
    constructor
    · rintro ⟨f, ⟨hf, hcond⟩, rfl⟩
      simp only [Bool.and_eq_true, beq_iff_eq] at hcond
      obtain ⟨h2, h3⟩ := hcond
      obtain ⟨p, b⟩ := f
      simp only at h2
      subst h2
      exact ⟨hf, h3⟩
    · rintro ⟨hmem, hsuf⟩
      exact ⟨(p, true), ⟨hmem, by simp [hsuf]⟩, rfl⟩
  · exact List.Sublist.map _ (List.filter_sublist files)

/-- Witness for C2 at a concrete traversal: the upper-case `.EVTX` file is
    enumerated. -/
theorem enumeration_exact_witness :
    "/h/b.EVTX" ∈ enumerateEvtx filesMixed :=
  ((enumeration_exact filesMixed).1 "/h/b.EVTX").mpr ⟨by decide, by decide⟩

/-! ### Claim C8 -/

/-- C8: whenever no native rules directory is configured, the Host Runner
    creates a temporary one (lines 140-144), and once the `try:` is entered
    it is removed on every exit path — normal completion, detection-check
    failure, or caught exception — by the `finally:` of lines 270-273, with
    deletion failures ignored (`ignore_errors=True`). -/
theorem temp_rules_dir_removed (cfg : Config) (hostDir ts : String) (w : World)
    (h1 : cfg.chainsRuleDir = "") (h2 : w.setupErr = none) :
    (run_for_host cfg hostDir ts w).tempCreated = true ∧
    (run_for_host cfg hostDir ts w).tempRemoved = true := by
  unfold run_for_host
  rw [h2]
  cases hb : w.bodyErr with
  | some e => constructor <;> simp [h1]
  | none => constructor <;> simp [h1]

/-- Witness for C8 at a concrete run. -/
theorem temp_rules_dir_removed_witness :
    (run_for_host cfgBase "/evtx/H1" "t" wBase).tempCreated = true ∧
    (run_for_host cfgBase "/evtx/H1" "t" wBase).tempRemoved = true :=
  temp_rules_dir_removed cfgBase "/evtx/H1" "t" wBase rfl rfl

/-! ### Claim C10 -/

/-- C10: every returned ScanResult satisfies the report-path invariant: a
    report path is present only when detected; for the csv and json formats a
    positive detection always carries a report path pointing into the host's
    own output directory; for the log format the report path is always
    absent. -/
theorem scan_result_invariant (cfg : Config) (hostDir ts : String) (w : World)
    (r : HostOutcome) (h : (run_for_host cfg hostDir ts w).result = Except.ok r) :
    (r.report_path ≠ none → r.detected = true) ∧
    ((cfg.chainsFormat = "csv" ∨ cfg.chainsFormat = "json") → r.detected = true →
      ∃ n, r.report_path =
        some (mkOutDir cfg (pyBasename hostDir) ts ++ "/" ++ n)) ∧
    (cfg.chainsFormat = "log" → r.report_path = none) := by
  unfold run_for_host at h
  cases hs : w.setupErr with
  | some e => rw [hs] at h; exact absurd h (by simp)
  | none =>
    rw [hs] at h
    cases hb : w.bodyErr with
    | some e =>
      rw [hb] at h
      injection h with h
      subst h
      exact ⟨fun hn => absurd rfl hn, fun _ hdet => absurd hdet (by simp),
             fun _ => rfl⟩
    | none =>
      rw [hb] at h
      injection h with h
      subst h
      refine ⟨?_, ?_, ?_⟩
      · intro hn
        apply detectOutputs_rep_detected
        rw [Option.isSome_iff_ne_none]
        intro heq
        exact hn (by simp [heq])
      · intro hfmt hdet
        have hrep := detectOutputs_detected_rep _ _ _ hfmt hdet
        obtain ⟨n, hn⟩ := Option.isSome_iff_exists.mp hrep
        exact ⟨n, by simp [hn]⟩
      · intro hfmt
        have := detectOutputs_log_rep cfg.chainsFormat (hostArtifacts w)
          (if cfg.quiet then none else some (hostLogText cfg hostDir ts w))
          (by rw [hfmt]; decide) (by rw [hfmt]; decide)
        simp [this]

/-- Witness for C10 at a concrete verbose log run: the report path is
    absent. -/
theorem scan_result_invariant_witness : rLogClean.report_path = none :=
  (scan_result_invariant cfgLogV "/evtx/H1" "t" wBase rLogClean rfl).2.2 rfl

/-! ### Claim C3 -/

/-- Characterization of the csv branch of the detection block: the detected
    flag is set iff some csv artifact has more than one non-blank line, and
    the recorded name is the first qualifying file of the name-sorted csv
    listing. -/
theorem detectOutputs_csv (a : List (String × String)) (t : Option String) :
    ((detectOutputs "csv" a t).1 = true ↔
      ∃ f ∈ a, endsWithStr f.1 ".csv" = true ∧ 1 < nonBlankCount f.2) ∧
    (∀ n, (detectOutputs "csv" a t).2 = some n →
      ∃ c l₁ l₂,
        sortByName (a.filter (fun f => endsWithStr f.1 ".csv"))
          = l₁ ++ (n, c) :: l₂ ∧
        1 < nonBlankCount c ∧ ∀ g ∈ l₁, nonBlankCount g.2 ≤ 1) := by
  have hmemiff : ∀ f, f ∈ sortByName (a.filter (fun g => endsWithStr g.1 ".csv")) ↔
      f ∈ a ∧ endsWithStr f.1 ".csv" = true := by
    intro f; rw [mem_sortByName, List.mem_filter]
  have hex : (∃ f ∈ sortByName (a.filter (fun g => endsWithStr g.1 ".csv")),
      1 < nonBlankCount f.2) ↔
      ∃ f ∈ a, endsWithStr f.1 ".csv" = true ∧ 1 < nonBlankCount f.2 := by
    constructor
    · rintro ⟨f, hf, hcnt⟩
      obtain ⟨hfa, hfe⟩ := (hmemiff f).mp hf
      exact ⟨f, hfa, hfe, hcnt⟩
    · rintro ⟨f, hfa, hfe, hcnt⟩
      exact ⟨f, (hmemiff f).mpr ⟨hfa, hfe⟩, hcnt⟩
  have hred : detectOutputs "csv" a t =
      match csvHit (sortByName (a.filter (fun g => endsWithStr g.1 ".csv"))) with
      | some n => (true, some n)
      | none => (false, none) := rfl
  rw [hred]
  cases hc : csvHit (sortByName (a.filter (fun g => endsWithStr g.1 ".csv"))) with
  | none =>
    refine ⟨?_, ?_⟩
    · simp only [Bool.false_eq_true, false_iff]
      rw [← hex]
      intro hexists
      have hsome := (csvHit_isSome_iff _).mpr hexists
      rw [hc] at hsome
      exact Bool.noConfusion hsome
    · intro n hn; exact absurd hn (by simp)
  | some m =>
    refine ⟨?_, ?_⟩
    · simp only [true_iff]
      rw [← hex]
      exact (csvHit_isSome_iff _).mp (by rw [hc]; rfl)
    · intro n hn
      obtain rfl : m = n := by simpa using hn
      exact csvHit_eq_some _ _ hc

/-- C3: when the format is csv and the host's processing completes normally,
    the host is DETECTED iff at least one csv artifact in its output
    directory has two or more non-blank lines (a header-only csv yields
    CLEAN); the csv files are inspected in name-sorted order and the recorded
    report path is the first qualifying file of that order, inside the host's
    own output directory. -/
theorem csv_detection (cfg : Config) (hostDir ts : String) (w : World)
    (h1 : cfg.chainsFormat = "csv") (h2 : w.setupErr = none)
    (h3 : w.bodyErr = none) :
    ∃ r, (run_for_host cfg hostDir ts w).result = Except.ok r ∧
      (r.detected = true ↔
        ∃ f ∈ hostArtifacts w, endsWithStr f.1 ".csv" = true ∧
          1 < nonBlankCount f.2) ∧
      (∀ p, r.report_path = some p →
        ∃ n c l₁ l₂,
          p = mkOutDir cfg (pyBasename hostDir) ts ++ "/" ++ n ∧
          sortByName ((hostArtifacts w).filter (fun f => endsWithStr f.1 ".csv"))
            = l₁ ++ (n, c) :: l₂ ∧
          1 < nonBlankCount c ∧
          ∀ g ∈ l₁, nonBlankCount g.2 ≤ 1) := by
  unfold run_for_host
  rw [h2, h3, h1]
  refine ⟨_, rfl, ?_, ?_⟩
  · exact (detectOutputs_csv (hostArtifacts w)
      (if cfg.quiet then none else some (hostLogText cfg hostDir ts w))).1
  · intro p hp
    have hp2 : (detectOutputs "csv" (hostArtifacts w)
        (if cfg.quiet then none else some (hostLogText cfg hostDir ts w))).2.map
          (fun n => mkOutDir cfg (pyBasename hostDir) ts ++ "/" ++ n) = some p := hp
    cases hrep : (detectOutputs "csv" (hostArtifacts w)
        (if cfg.quiet then none else some (hostLogText cfg hostDir ts w))).2 with
    | none => rw [hrep] at hp2; exact absurd hp2 (by simp)
    | some n =>
      rw [hrep] at hp2
      obtain rfl : mkOutDir cfg (pyBasename hostDir) ts ++ "/" ++ n = p := by
        simpa using hp2
      obtain ⟨c, l₁, l₂, hdec, hgt, hall⟩ :=
        (detectOutputs_csv (hostArtifacts w) _).2 n hrep
      exact ⟨n, c, l₁, l₂, rfl, hdec, hgt, hall⟩

/-- Witness for C3: in the `wDet` run the second-sorted csv holds a data row,
    so the host is detected. -/
theorem csv_detection_witness : rDet.detected = true := by
  obtain ⟨r, hr, hiff, -⟩ := csv_detection cfgBase "/evtx/H1" "t" wDet rfl rfl rfl
  have hrr : r = rDet := by
    have hok : Except.ok (ε := String) r = Except.ok rDet := by
      rw [← hr]; rfl
    exact Except.ok.inj hok
  rw [hrr] at hiff
  exact hiff.mpr ⟨("b.csv", "h\nrow\n"), by decide, by decide, by decide⟩

/-! ### Claim C5 -/

/-- C5: when the format is log and setup succeeds, a quiet run always yields
    `detected = false` regardless of any output, and a verbose run that
    completes normally yields `detected = true` exactly when the wrapper's
    own log text contains the substring "DETECTED" or the substring
    "Matches:". -/
theorem log_detection (cfg : Config) (hostDir ts : String) (w : World)
    (h1 : cfg.chainsFormat = "log") (h2 : w.setupErr = none) :
    (cfg.quiet = true →
      ∃ r, (run_for_host cfg hostDir ts w).result = Except.ok r ∧
        r.detected = false) ∧
    (cfg.quiet = false → w.bodyErr = none →
      ∃ r, (run_for_host cfg hostDir ts w).result = Except.ok r ∧
        (r.detected = true ↔
          ("DETECTED".data <:+: (hostLogText cfg hostDir ts w).data ∨
           "Matches:".data <:+: (hostLogText cfg hostDir ts w).data))) := by
  have hlogred : ∀ topt, detectOutputs "log" (hostArtifacts w) topt =
      (match topt with
       | some t => (containsSub t "DETECTED" || containsSub t "Matches:", none)
       | none => (false, none)) := fun _ => rfl
  constructor
  · intro hq
    unfold run_for_host
    rw [h2, h1]
    cases hb : w.bodyErr with
    | some e => exact ⟨_, rfl, rfl⟩
    | none =>
      refine ⟨_, rfl, ?_⟩
      rw [hq]
      simp only [if_true, hlogred]
  · intro hq hb
    unfold run_for_host
    rw [h2, h1, hb, hq]
    refine ⟨_, rfl, ?_⟩
    simp only [Bool.false_eq_true, if_false, hlogred]
    rw [Bool.or_eq_true, containsSub_iff, containsSub_iff]

/-- Witness for C5: a verbose log run over a benign host directory is not
    detected, because neither literal occurs in the wrapper's log. -/
theorem log_detection_witness : rLogClean.detected = false := by
  obtain ⟨r, hr, hiff⟩ :=
    (log_detection cfgLogV "/evtx/H1" "t" wBase rfl rfl).2 rfl rfl
  have hrr : r = rLogClean := by
    have hok : Except.ok (ε := String) r = Except.ok rLogClean := by
      rw [← hr]; rfl
    exact Except.ok.inj hok
  rw [hrr] at hiff
  by_contra hdet
  simp only [Bool.not_eq_false] at hdet
  rcases hiff.mp hdet with hinf | hinf
  · have hcs := (containsSub_iff (hostLogText cfgLogV "/evtx/H1" "t" wBase)
      "DETECTED").mpr hinf
    rw [show containsSub (hostLogText cfgLogV "/evtx/H1" "t" wBase) "DETECTED"
        = false from rfl] at hcs
    exact Bool.noConfusion hcs
  · have hcs := (containsSub_iff (hostLogText cfgLogV "/evtx/H1" "t" wBase)
      "Matches:").mpr hinf
    rw [show containsSub (hostLogText cfgLogV "/evtx/H1" "t" wBase) "Matches:"
        = false from rfl] at hcs
    exact Bool.noConfusion hcs

/-! ### Claim C6 -/

/-- C6 counterexample: a verbose log-format run over a host directory named
    "DETECTED" with zero input files is reported as detected, because the
    detection check greps the wrapper's own log, whose header (line 152)
    embeds the host directory path.  The claim asserts detected = false for
    every zero-file host in both modes. -/
theorem zero_files_can_still_detect :
    enumerateEvtx wBase.hostFiles = [] ∧
    (run_for_host cfgLogV "/evtx/DETECTED" "t" wBase).invocations = [] ∧
    (run_for_host cfgLogV "/evtx/DETECTED" "t" wBase).result.map
      HostOutcome.detected = Except.ok true :=
  ⟨rfl, rfl, rfl⟩

/-- With no artifacts the detection block yields no report path, and a
    positive flag only through the verbose log substring test. -/
theorem detectOutputs_empty (fmt : String) (topt : Option String) :
    (detectOutputs fmt [] topt).2 = none ∧
    ((fmt = "csv" ∨ fmt = "json" ∨ topt = none) →
      (detectOutputs fmt [] topt).1 = false) ∧
    (∀ t, fmt ≠ "csv" → fmt ≠ "json" → topt = some t →
      (detectOutputs fmt [] topt).1 =
        (containsSub t "DETECTED" || containsSub t "Matches:")) := by
  unfold detectOutputs
  split
  · exact ⟨rfl, fun _ => rfl, fun t hcsv _ _ => absurd (by assumption) hcsv⟩
  · split
    · exact ⟨rfl, fun _ => rfl, fun t _ hjson _ => absurd (by assumption) hjson⟩
    · cases topt with
      | none =>
        exact ⟨rfl, fun _ => rfl, fun t _ _ hsome => Option.noConfusion hsome⟩
      | some t0 =>
        refine ⟨rfl, ?_, ?_⟩
        · rintro (h | h | h) <;> simp_all
        · intro t _ _ hsome
          obtain rfl : t0 = t := Option.some.inj hsome
          rfl

/-- C6 (amended): for every host directory with zero matching input files
    whose setup succeeds, no SCANNER subprocess is invoked and the result has
    no report path; `detected` is false whenever quiet mode is on or the
    format is csv or json — in a verbose run of any other format it instead
    equals the substring test over the wrapper's own log text, whose header
    embeds the configured paths. -/
theorem zero_files_no_invocation (cfg : Config) (hostDir ts : String)
    (w : World) (h1 : w.setupErr = none)
    (h2 : enumerateEvtx w.hostFiles = []) :
    (run_for_host cfg hostDir ts w).invocations = [] ∧
    ∃ r, (run_for_host cfg hostDir ts w).result = Except.ok r ∧
      r.report_path = none ∧
      ((cfg.quiet = true ∨ cfg.chainsFormat = "csv" ∨ cfg.chainsFormat = "json") →
        r.detected = false) ∧
      (cfg.quiet = false → cfg.chainsFormat ≠ "csv" → cfg.chainsFormat ≠ "json" →
        w.bodyErr = none →
        r.detected = (containsSub (hostLogText cfg hostDir ts w) "DETECTED" ||
                      containsSub (hostLogText cfg hostDir ts w) "Matches:")) := by
  have hart : hostArtifacts w = [] := by
    unfold hostArtifacts
    rw [h2]
    rfl
  unfold run_for_host
  rw [h1, h2]
  cases hb : w.bodyErr with
  | some e =>
    refine ⟨by simp, _, rfl, rfl, fun _ => rfl, fun _ _ _ hnone => ?_⟩
    exact absurd hnone (by simp)
  | none =>
    rw [hart]
    refine ⟨by simp, _, rfl, ?_, ?_, ?_⟩
    · show Option.map _ (detectOutputs cfg.chainsFormat []
        (if cfg.quiet = true then none
         else some (hostLogText cfg hostDir ts w))).2 = none
      rw [(detectOutputs_empty cfg.chainsFormat _).1]
      rfl
    · intro hcase
      cases hq : cfg.quiet with
      | true =>
        exact (detectOutputs_empty cfg.chainsFormat none).2.1
          (Or.inr (Or.inr rfl))
      | false =>
        rcases hcase with h | h | h
        · exact absurd h (by simp [hq])
        · exact (detectOutputs_empty cfg.chainsFormat _).2.1 (Or.inl h)
        · exact (detectOutputs_empty cfg.chainsFormat _).2.1 (Or.inr (Or.inl h))
    · intro hq hcsv hjson _
      rw [hq]
      exact (detectOutputs_empty cfg.chainsFormat _).2.2 _ hcsv hjson rfl

/-- Witness for C6 (amended) at a concrete quiet csv run with no inputs. -/
theorem zero_files_no_invocation_witness :
    (run_for_host cfgBase "/evtx/H1" "t" wBase).invocations = [] := by
  exact (zero_files_no_invocation cfgBase "/evtx/H1" "t" wBase rfl rfl).1

/-! ### Claim C4 -/

/-- C4: the Notifier is invoked iff at least one host result is detected;
    the model returns at most one subject/body pair, matching the single
    `send_mail` call of line 337.  When invoked, the subject is the prefix
    followed by the decimal count of detected hosts, so the count occurs in
    the subject; and for every detected host its summary line (report path or
    placeholder) occurs in the body. -/
theorem notify_iff_detected (cfg : Config) (results : List HostOutcome) :
    ((notifyStep cfg results).isSome = true ↔ ∃ r ∈ results, r.detected = true) ∧
    (∀ s b, notifyStep cfg results = some (s, b) →
      s = cfg.mailSubject ++ " " ++
          toString (results.filter (fun r => r.detected)).length ++
          " host(s) detected" ∧
      (toString (results.filter (fun r => r.detected)).length).data <:+: s.data ∧
      (∀ r ∈ results, r.detected = true → (hostLine r).data <:+: b.data)) := by
  constructor
  · unfold notifyStep
    by_cases he : (results.filter (fun r => r.detected)).isEmpty
    · rw [if_pos he]
      simp only [Option.isSome_none, Bool.false_eq_true, false_iff]
      rintro ⟨r, hr, hdet⟩
      rw [List.isEmpty_iff] at he
      have : r ∈ results.filter (fun r => r.detected) :=
        List.mem_filter.mpr ⟨hr, hdet⟩
      rw [he] at this
      exact absurd this (List.not_mem_nil r)
    · rw [if_neg he]
      simp only [Option.isSome_some, true_iff]
      rw [List.isEmpty_iff] at he
      obtain ⟨r, hr⟩ := List.exists_mem_of_ne_nil _ he
      obtain ⟨hrr, hdet⟩ := List.mem_filter.mp hr
      exact ⟨r, hrr, hdet⟩
  · intro s b h
    by_cases he : (results.filter (fun r => r.detected)).isEmpty
    · have hnone : notifyStep cfg results = none := by
        unfold notifyStep
        rw [if_pos he]
      rw [hnone] at h
      exact absurd h (by simp)
    · have hsome : notifyStep cfg results =
          some (cfg.mailSubject ++ " " ++
              toString (results.filter (fun r => r.detected)).length ++
              " host(s) detected",
            joinWith "\n"
              (summaryLines cfg (results.filter (fun r => r.detected)))) := by
        unfold notifyStep
        rw [if_neg he]
      rw [hsome] at h
      obtain ⟨hs, hb⟩ : (cfg.mailSubject ++ " " ++
          toString (results.filter (fun r => r.detected)).length ++
          " host(s) detected" = s) ∧
          joinWith "\n" (summaryLines cfg (results.filter (fun r => r.detected)))
            = b := by
        have hinj := Option.some.inj h
        exact ⟨congrArg Prod.fst hinj, congrArg Prod.snd hinj⟩
      subst hs
      subst hb
      refine ⟨rfl, ?_, ?_⟩
      · refine ⟨(cfg.mailSubject ++ " ").data, " host(s) detected".data, ?_⟩
        simp [String.data_append, List.append_assoc]
      · intro r hr hdet
        apply mem_joinWith_data
        unfold summaryLines
        simp only [List.mem_append]
        have hm : hostLine r ∈
            List.map hostLine (results.filter (fun x => x.detected)) :=
          List.mem_map.mpr ⟨r, List.mem_filter.mpr ⟨hr, hdet⟩, rfl⟩
        tauto

/-- Witness for C4: a single detected host triggers the notification. -/
theorem notify_iff_detected_witness :
    (notifyStep cfgBase [rDet]).isSome = true :=
  (notify_iff_detected cfgBase [rDet]).1.mpr ⟨rDet, by simp, rfl⟩
